import Mathlib

/-
  Shallow embedding of src/src/smbus.h (lm-sensors SMBus layer).

  Modelling conventions:
  * C machine integers (u8, u16, s32, int) are Nat for unsigned values and
    Int for signed status/return values.  Width constraints of u8/u16 are
    expressed by the well-formedness predicate smbus_data.WF where a claim
    depends on them; the source itself never overflows (it only copies).
  * C pointers between the registry structures are modelled as numeric ids
    where following the pointer is not needed by any claim (client.adapter,
    client.driver, and the adapter argument of algorithm callbacks), and as
    embedded values where it is (adapter.algo, adapter.clients).
  * The union smbus_data is modelled as a record with one field per view;
    every transaction in the source touches a single view, so the aliasing
    of the C union is never observable in the claims.  The 32-byte array
    block is modelled as a total function Nat -> Nat so that the index
    ranges actually touched by the code can be reasoned about.
  * smbus_access itself is only declared extern in smbus.h; the inline
    wrappers are the code under verification.  Each wrapper therefore takes
    the access routine as an explicit parameter acc : SmbusAccessFn, and an
    explicit value d0 : smbus_data standing for the (uninitialized) stack
    contents of the local union the wrapper declares.  acc returns the
    status and the contents of the pointed-to union after the call; when
    the wrapper passes NULL (none) the second component is irrelevant and
    ignored by the wrapper.
-/

/-- The union smbus_data of smbus.h (lines 125-129): one byte view (u8),
one word view (u16), one 32-byte block view (u8 block[32]).  Modelled as a
record of the three views; block is a total function so out-of-range
indices can be discussed. -/
structure smbus_data where
  byte : Nat
  word : Nat
  block : Nat → Nat

/-- Well-formedness corresponding to the C field types of the union:
byte is a u8, word is a u16, every cell of block is a u8. -/
def smbus_data.WF (d : smbus_data) : Prop :=
  d.byte < 256 ∧ d.word < 65536 ∧ ∀ i, d.block i < 256

/-- The external struct i2c_msg from linux/i2c.h (not part of this
repository); only its existence is needed for the master_xfer signature. -/
structure i2c_msg where
  addr : Nat
  flags : Nat
  len : Nat
  buf : List Nat

/-- struct smbus_client (smbus.h lines 66-74).  The adapter and driver
back-pointers are modelled as numeric ids. -/
structure smbus_client where
  name : String
  id : Int
  flags : Nat
  addr : Nat
  adapter : Nat
  driver : Nat
  data : Nat

/-- struct smbus_driver (smbus.h lines 52-61); the adapter argument of
attach_adapter is modelled as an adapter id. -/
structure smbus_driver where
  name : String
  id : Int
  flags : Nat
  attach_adapter : Nat → Int
  detach_client : smbus_client → Int
  command : smbus_client → Nat → Nat → Int
  inc_use : smbus_client → Unit
  dec_use : smbus_client → Unit

/-- struct smbus_algorithm (smbus.h lines 79-89).  Note: it has NO
smbus_access member; its fields are exactly the generic transfer, slave
and control callbacks plus client (un)registration.  Adapter arguments of
the callbacks are modelled as adapter ids. -/
structure smbus_algorithm where
  name : String
  id : Nat
  master_xfer : Nat → List i2c_msg → Int → Int
  slave_send : Nat → List Nat → Int → Int
  slave_recv : Nat → List Nat → Int → Int
  algo_control : Nat → Nat → Nat → Int
  client_register : smbus_client → Int
  client_unregister : smbus_client → Int

/-- struct smbus_adapter (smbus.h lines 95-115): bound algorithm, private
data, lock (irrelevant here, Unit), flags, the fixed-size array of client
pointers with its count, timeout, retries, and — per the source — the
native smbus_access entry point as a PER-ADAPTER field (its C signature
s32 (...)(u8, char, u8, int, union smbus_data \x2a) has no adapter
argument). -/
structure smbus_adapter where
  name : String
  id : Nat
  algo : smbus_algorithm
  data : Nat
  lock : Unit
  flags : Nat
  clients : List smbus_client
  client_count : Int
  timeout : Int
  retries : Int
  smbus_access : Nat → Nat → Nat → Nat → Option smbus_data → Int × smbus_data

/-- ALGO_SMBUS capability flag (smbus.h line 122), marked in the algorithm
structure's id field. -/
def ALGO_SMBUS : Nat := 0x40000

/-- smbus_access read/write markers (smbus.h lines 132-133). -/
def SMBUS_READ : Nat := 1

def SMBUS_WRITE : Nat := 0

/-- SMBus transaction types (smbus.h lines 137-142). -/
def SMBUS_QUICK : Nat := 0

def SMBUS_BYTE : Nat := 1

def SMBUS_BYTE_DATA : Nat := 2

def SMBUS_WORD_DATA : Nat := 3

def SMBUS_PROC_CALL : Nat := 4

def SMBUS_BLOCK_DATA : Nat := 5

/-- The type of the generalized access routine smbus_access (declared
extern at smbus.h lines 151-153, defined outside this repository).
Arguments: adapter, addr, read_write, command, size, data pointer (none =
NULL).  Result: the s32 status and the contents of the pointed-to union
after the call (irrelevant when the pointer was NULL). -/
def SmbusAccessFn : Type :=
  smbus_adapter → Nat → Nat → Nat → Nat → Option smbus_data → Int × smbus_data

/-- smbus_write_quick (smbus.h lines 158-162):
smbus_access(adapter, addr, value, 0, SMBUS_QUICK, NULL). -/
def smbus_write_quick (acc : SmbusAccessFn) (adapter : smbus_adapter)
    (addr value : Nat) : Int :=
  (acc adapter addr value 0 SMBUS_QUICK none).1

/-- smbus_read_byte (smbus.h lines 164-171): on nonzero status return -1,
else return data.byte. -/
def smbus_read_byte (acc : SmbusAccessFn) (adapter : smbus_adapter)
    (addr : Nat) (d0 : smbus_data) : Int :=
  let r := acc adapter addr SMBUS_READ 0 SMBUS_BYTE (some d0)
  if r.1 ≠ 0 then -1 else Int.ofNat r.2.byte

/-- smbus_write_byte (smbus.h lines 173-177): the value is passed in the
command argument slot of smbus_access, with NULL data. -/
def smbus_write_byte (acc : SmbusAccessFn) (adapter : smbus_adapter)
    (addr value : Nat) : Int :=
  (acc adapter addr SMBUS_WRITE value SMBUS_BYTE none).1

/-- smbus_read_byte_data (smbus.h lines 179-187). -/
def smbus_read_byte_data (acc : SmbusAccessFn) (adapter : smbus_adapter)
    (addr command : Nat) (d0 : smbus_data) : Int :=
  let r := acc adapter addr SMBUS_READ command SMBUS_BYTE_DATA (some d0)
  if r.1 ≠ 0 then -1 else Int.ofNat r.2.byte

/-- smbus_write_byte_data (smbus.h lines 189-195): data.byte := value,
then a WRITE access of kind BYTE_DATA. -/
def smbus_write_byte_data (acc : SmbusAccessFn) (adapter : smbus_adapter)
    (addr command value : Nat) (d0 : smbus_data) : Int :=
  (acc adapter addr SMBUS_WRITE command SMBUS_BYTE_DATA
    (some { d0 with byte := value })).1

/-- smbus_read_word_data (smbus.h lines 197-205). -/
def smbus_read_word_data (acc : SmbusAccessFn) (adapter : smbus_adapter)
    (addr command : Nat) (d0 : smbus_data) : Int :=
  let r := acc adapter addr SMBUS_READ command SMBUS_WORD_DATA (some d0)
  if r.1 ≠ 0 then -1 else Int.ofNat r.2.word

/-- smbus_write_word_data (smbus.h lines 207-213). -/
def smbus_write_word_data (acc : SmbusAccessFn) (adapter : smbus_adapter)
    (addr command value : Nat) (d0 : smbus_data) : Int :=
  (acc adapter addr SMBUS_WRITE command SMBUS_WORD_DATA
    (some { d0 with word := value })).1

/-- smbus_process_call (smbus.h lines 215-224): data.word := value, WRITE
access of kind PROC_CALL; on success return the word left in the union by
the access, on failure -1. -/
def smbus_process_call (acc : SmbusAccessFn) (adapter : smbus_adapter)
    (addr command value : Nat) (d0 : smbus_data) : Int :=
  let r := acc adapter addr SMBUS_WRITE command SMBUS_PROC_CALL
    (some { d0 with word := value })
  if r.1 ≠ 0 then -1 else Int.ofNat r.2.word

/-- Pointwise update of a block / buffer modelled as Nat → Nat: one store
b[i] := v. -/
def blockStore (b : Nat → Nat) (i v : Nat) : Nat → Nat :=
  fun j => if j = i then v else b j

/-- The copy loop of smbus_read_block_data (smbus.h lines 235-236):
for i = 1 to n do values[i-1] := block[i], in ascending order. -/
def readBlockCopy (block : Nat → Nat) : Nat → (Nat → Nat) → (Nat → Nat)
  | 0, values => values
  | n + 1, values => blockStore (readBlockCopy block n values) n (block (n + 1))

/-- smbus_read_block_data (smbus.h lines 227-239): on nonzero status
return -1 leaving the caller's values buffer untouched; on success copy
block[1..block[0]] into values[0..block[0]-1] and return block[0].
Returns the status together with the resulting values buffer (the C
version writes through the values pointer). -/
def smbus_read_block_data (acc : SmbusAccessFn) (adapter : smbus_adapter)
    (addr command : Nat) (values : Nat → Nat) (d0 : smbus_data) :
    Int × (Nat → Nat) :=
  let r := acc adapter addr SMBUS_READ command SMBUS_BLOCK_DATA (some d0)
  if r.1 ≠ 0 then (-1, values)
  else (Int.ofNat (r.2.block 0), readBlockCopy r.2.block (r.2.block 0) values)

/-- The store loop of smbus_write_block_data (smbus.h lines 249-250):
for i = 1 to n do block[i] := values[i-1], in ascending order. -/
def storeValues (values : Nat → Nat) : Nat → (Nat → Nat) → (Nat → Nat)
  | 0, b => b
  | n + 1, b => blockStore (storeValues values n b) (n + 1) (values n)

/-- The data union built by smbus_write_block_data (smbus.h lines
245-251): clamp length to 32, store values[0..len-1] into block[1..len],
then block[0] := len. -/
def writeBlockMarshal (length : Nat) (values : Nat → Nat)
    (d0 : smbus_data) : smbus_data :=
  let len := if 32 < length then 32 else length
  { d0 with block := blockStore (storeValues values len d0.block) 0 len }

/-- smbus_write_block_data (smbus.h lines 241-253): marshal the clamped
block and issue a WRITE access of kind BLOCK_DATA. -/
def smbus_write_block_data (acc : SmbusAccessFn) (adapter : smbus_adapter)
    (addr command length : Nat) (values : Nat → Nat) (d0 : smbus_data) : Int :=
  (acc adapter addr SMBUS_WRITE command SMBUS_BLOCK_DATA
    (some (writeBlockMarshal length values d0))).1

/-- Error taxonomy of the spec (§7).  Only the attach/detach errors are
exercised by the registration model below. -/
inductive SmbusError where
  | DuplicateRegistration
  | UnknownId
  | ResourceInUse
  | AddressConflict
  | AdapterFull
  | Timeout
  | TransferError
  | InvalidTransactionKind
deriving DecidableEq

/-- I2C_CLIENT_MAX, the fixed capacity of the adapter's client array
(smbus.h line 107).  The constant itself comes from the external i2c
layer; its concrete value is irrelevant to the claims, which only use
that it is a fixed bound. -/
def I2C_CLIENT_MAX : Int := 32

/-- Modelled from the spec: smbus_attach_client is only declared extern in
smbus.h (line 265); its body lives outside this repository.  Spec §4.2:
validate spare capacity (client_count < max) failing with AdapterFull,
validate the address is not already occupied failing with AddressConflict,
otherwise insert the client and increment client_count.  (The driver's
usage-increment hook returns void and owns no modelled state.)  Returns
the status (none = success) together with the resulting adapter. -/
def smbus_attach_client (a : smbus_adapter) (c : smbus_client) :
    Option SmbusError × smbus_adapter :=
  if a.client_count < I2C_CLIENT_MAX then
    if a.clients.any (fun c2 => c2.addr == c.addr) then
      (some SmbusError.AddressConflict, a)
    else
      (none, { a with clients := a.clients ++ [c],
                      client_count := a.client_count + 1 })
  else (some SmbusError.AdapterFull, a)

/-
  Concrete fixtures used by the witnesses and counterexamples.
-/

/-- A concrete, fully zero data union. -/
def dZ : smbus_data := { byte := 0, word := 0, block := fun _ => 0 }

/-- A concrete well-formed data union with every view reading 7. -/
def d7 : smbus_data := { byte := 7, word := 7, block := fun _ => 7 }

/-- A concrete algorithm with trivial callbacks. -/
def g0 : smbus_algorithm :=
  { name := "algo0", id := ALGO_SMBUS,
    master_xfer := fun _ _ _ => 0, slave_send := fun _ _ _ => 0,
    slave_recv := fun _ _ _ => 0, algo_control := fun _ _ _ => 0,
    client_register := fun _ => 0, client_unregister := fun _ => 0 }

/-- A concrete adapter bound to g0, with an empty client list. -/
def a0 : smbus_adapter :=
  { name := "adap0", id := 0, algo := g0, data := 0, lock := (), flags := 0,
    clients := [], client_count := 0, timeout := 10, retries := 2,
    smbus_access := fun _ _ _ _ _ => (0, dZ) }

/-- A concrete client. -/
def c0 : smbus_client :=
  { name := "client0", id := 0, flags := 0, addr := 0x48, adapter := 0,
    driver := 0, data := 0 }

/-- A concrete full adapter: client_count at capacity. -/
def aFull : smbus_adapter :=
  { a0 with clients := List.replicate 32 c0, client_count := 32 }

/-- Access routine that always succeeds and leaves the union as passed. -/
def accZ : SmbusAccessFn := fun _ _ _ _ _ d => (0, d.getD dZ)

/-- Access routine that always succeeds and writes the well-formed d7. -/
def accWF : SmbusAccessFn := fun _ _ _ _ _ _ => (0, d7)

/-- Access routine that always fails with status -5. -/
def accFail : SmbusAccessFn := fun _ _ _ _ _ _ => (-5, dZ)

/-- Access routine that echoes its command argument as the status,
observing what travels in the command slot. -/
def cmdProbe : SmbusAccessFn := fun _ _ _ c _ _ => (Int.ofNat c, dZ)

/-- Access routine of a (buggy or hostile) device that reports a block
length byte of 40 and fills block[i] with i. -/
def accBig : SmbusAccessFn :=
  fun _ _ _ _ _ _ =>
    (0, { byte := 0, word := 0, block := fun i => if i = 0 then 40 else i })

/-- A constant caller values buffer reading 99 everywhere. -/
def vals99 : Nat → Nat := fun _ => 99

/-- A constant caller values buffer reading 0 everywhere. -/
def valsZ : Nat → Nat := fun _ => 0

/-
  Characterizations of the two copy loops.
-/

/-- The store loop of smbus_write_block_data writes values[j-1] at every
index 1 ≤ j ≤ n and leaves every other index of the block untouched. -/
theorem storeValues_eq (values : Nat → Nat) (n : Nat) (b : Nat → Nat)
    (j : Nat) :
    storeValues values n b j = if 1 ≤ j ∧ j ≤ n then values (j - 1) else b j := by
  induction n with
  | zero =>
    have h0 : ¬(1 ≤ j ∧ j = 0) := by omega
    simp [storeValues, h0]
  | succ n ih =>
    by_cases hj : j = n + 1
    · subst hj
      simp [storeValues, blockStore]
    · have h1 : (1 ≤ j ∧ j ≤ n + 1) ↔ (1 ≤ j ∧ j ≤ n) := by omega
      simp [storeValues, blockStore, hj, ih, h1]

/-- The copy loop of smbus_read_block_data writes block[j+1] at every
index j < n of the values buffer and leaves every other index untouched. -/
theorem readBlockCopy_eq (block : Nat → Nat) (n : Nat) (values : Nat → Nat)
    (j : Nat) :
    readBlockCopy block n values j = if j < n then block (j + 1) else values j := by
  induction n with
  | zero => simp [readBlockCopy]
  | succ n ih =>
    by_cases hj : j = n
    · subst hj
      simp [readBlockCopy, blockStore]
    · have h1 : j < n + 1 ↔ j < n := by omega
      simp [readBlockCopy, blockStore, hj, ih, h1]

/-- Claim C1: for every adapter, address, command and values buffer,
smbus_write_block_data with any length puts min(length, 32) in block[0]
of the marshalled union, and with any length above 32 it builds the very
same union and makes the very same call to smbus_access as with length
32, reporting no error for the truncation (the status is whatever that
identical call returns). -/
theorem smbus_write_block_data_truncation (acc : SmbusAccessFn)
    (a : smbus_adapter) (addr command length : Nat) (values : Nat → Nat)
    (d0 : smbus_data) :
    (writeBlockMarshal length values d0).block 0 = min length 32
    ∧ (32 < length →
        writeBlockMarshal length values d0 = writeBlockMarshal 32 values d0
        ∧ smbus_write_block_data acc a addr command length values d0
            = smbus_write_block_data acc a addr command 32 values d0) := by
  constructor
  · by_cases h : 32 < length
    · have h32 : (if 32 < length then 32 else length) = 32 := if_pos h
      have hmin : min length 32 = 32 := by omega
      simp [writeBlockMarshal, blockStore, h32, hmin]
    · have h32 : (if 32 < length then 32 else length) = length := if_neg h
      have hmin : min length 32 = length := by omega
      simp [writeBlockMarshal, blockStore, h32, hmin]
  · intro h
    have h32 : (if 32 < length then 32 else length) = 32 := if_pos h
    have hm : writeBlockMarshal length values d0 = writeBlockMarshal 32 values d0 := by
      simp [writeBlockMarshal, h32]
    exact ⟨hm, by simp only [smbus_write_block_data, hm]⟩

/-- Claim C1 witness: at length 40 the wrapper call coincides with the
length-32 call, and the marshalled length byte is 32. -/
theorem smbus_write_block_data_truncation_w :
    writeBlockMarshal 40 vals99 dZ = writeBlockMarshal 32 vals99 dZ
    ∧ smbus_write_block_data accZ a0 3 4 40 vals99 dZ
        = smbus_write_block_data accZ a0 3 4 32 vals99 dZ :=
  (smbus_write_block_data_truncation accZ a0 3 4 40 vals99 dZ).2 (by decide)

/-- Claim C2: evaluation of the code at the failing inputs.  With length
exactly 32, smbus_write_block_data stores values[31] at block index 32 —
one past the end of the 32-byte C array u8 block[32] (valid indices
0..31): the marshalled union differs from the initial union at index 32.
Dually, when the access routine reports a block length byte of 40,
smbus_read_block_data returns 40 and its copy loop loads block[40],
placing it at values[39] — so loads are not bounded by 32. -/
theorem smbus_block_index_out_of_bounds :
    (writeBlockMarshal 32 vals99 dZ).block 32 = 99
    ∧ dZ.block 32 = 0
    ∧ (smbus_read_block_data accBig a0 5 6 valsZ dZ).1 = 40
    ∧ (smbus_read_block_data accBig a0 5 6 valsZ dZ).2 39 = 40 := by
  refine ⟨?_, rfl, ?_, ?_⟩
  · simp [writeBlockMarshal, blockStore, storeValues_eq, vals99]
  · simp [smbus_read_block_data, accBig]
  · simp [smbus_read_block_data, accBig, readBlockCopy_eq]

/-- Claim C3 counterexample: the byte transmitted by smbus_write_byte
does travel in the command parameter of smbus_access.  An access routine
that echoes only its command argument observes the value 171, and its
result depends on the value — impossible if the value did not travel in
the command slot. -/
theorem smbus_write_byte_value_in_command_cex :
    smbus_write_byte cmdProbe a0 7 171 = 171
    ∧ smbus_write_byte cmdProbe a0 7 0 = 0
    ∧ ¬ (∀ v : Nat, smbus_write_byte cmdProbe a0 7 v
          = smbus_write_byte cmdProbe a0 7 0) :=
  ⟨by decide, by decide, fun h => absurd (h 171) (by decide)⟩

/-- Claim C3 amended: Quick fixes the command argument of smbus_access at
0 (the caller supplies none), Byte reads fix it at 0, but a Byte WRITE
carries its data byte in the command slot: smbus_write_byte passes its
value as the command argument (with NULL data).  ByteData, WordData,
ProcCall and BlockData pass the caller's command byte through as a
register/command index. -/
theorem smbus_command_slot_usage (acc : SmbusAccessFn) (a : smbus_adapter)
    (addr command value length : Nat) (values : Nat → Nat) (d0 : smbus_data) :
    smbus_write_quick acc a addr value = (acc a addr value 0 SMBUS_QUICK none).1
    ∧ smbus_read_byte acc a addr d0
        = (if (acc a addr SMBUS_READ 0 SMBUS_BYTE (some d0)).1 ≠ 0 then -1
           else Int.ofNat (acc a addr SMBUS_READ 0 SMBUS_BYTE (some d0)).2.byte)
    ∧ smbus_write_byte acc a addr value
        = (acc a addr SMBUS_WRITE value SMBUS_BYTE none).1
    ∧ smbus_write_byte_data acc a addr command value d0
        = (acc a addr SMBUS_WRITE command SMBUS_BYTE_DATA
            (some { d0 with byte := value })).1
    ∧ smbus_write_word_data acc a addr command value d0
        = (acc a addr SMBUS_WRITE command SMBUS_WORD_DATA
            (some { d0 with word := value })).1
    ∧ smbus_process_call acc a addr command value d0
        = (if (acc a addr SMBUS_WRITE command SMBUS_PROC_CALL
                (some { d0 with word := value })).1 ≠ 0 then -1
           else Int.ofNat (acc a addr SMBUS_WRITE command SMBUS_PROC_CALL
                (some { d0 with word := value })).2.word)
    ∧ smbus_write_block_data acc a addr command length values d0
        = (acc a addr SMBUS_WRITE command SMBUS_BLOCK_DATA
            (some (writeBlockMarshal length values d0))).1 :=
  ⟨rfl, rfl, rfl, rfl, rfl, rfl, rfl⟩

/-- Claim C9: smbus_write_quick passes its value argument in the
read/write direction slot of smbus_access, with command byte 0, kind
SMBUS_QUICK, and NULL (none) data; the direction markers are
SMBUS_WRITE = 0 and SMBUS_READ = 1, so value 0 means write-quick and
value 1 means read-quick. -/
theorem smbus_write_quick_direction (acc : SmbusAccessFn)
    (a : smbus_adapter) (addr value : Nat) :
    smbus_write_quick acc a addr value
      = (acc a addr value 0 SMBUS_QUICK none).1
    ∧ SMBUS_WRITE = 0 ∧ SMBUS_READ = 1 ∧ SMBUS_QUICK = 0 :=
  ⟨rfl, rfl, rfl, rfl⟩

/-- Claim C4: each scalar read wrapper returns the plain scalar taken
from its kind's view of the data union when smbus_access reports status
0 — the byte view for smbus_read_byte and smbus_read_byte_data, the word
view for smbus_read_word_data — and returns -1 when the status is
nonzero. -/
theorem smbus_read_scalar_wrappers (acc : SmbusAccessFn)
    (a : smbus_adapter) (addr command : Nat) (d0 : smbus_data) :
    ((acc a addr SMBUS_READ 0 SMBUS_BYTE (some d0)).1 = 0 →
       smbus_read_byte acc a addr d0
         = Int.ofNat (acc a addr SMBUS_READ 0 SMBUS_BYTE (some d0)).2.byte)
    ∧ ((acc a addr SMBUS_READ 0 SMBUS_BYTE (some d0)).1 ≠ 0 →
       smbus_read_byte acc a addr d0 = -1)
    ∧ ((acc a addr SMBUS_READ command SMBUS_BYTE_DATA (some d0)).1 = 0 →
       smbus_read_byte_data acc a addr command d0
         = Int.ofNat (acc a addr SMBUS_READ command SMBUS_BYTE_DATA (some d0)).2.byte)
    ∧ ((acc a addr SMBUS_READ command SMBUS_BYTE_DATA (some d0)).1 ≠ 0 →
       smbus_read_byte_data acc a addr command d0 = -1)
    ∧ ((acc a addr SMBUS_READ command SMBUS_WORD_DATA (some d0)).1 = 0 →
       smbus_read_word_data acc a addr command d0
         = Int.ofNat (acc a addr SMBUS_READ command SMBUS_WORD_DATA (some d0)).2.word)
    ∧ ((acc a addr SMBUS_READ command SMBUS_WORD_DATA (some d0)).1 ≠ 0 →
       smbus_read_word_data acc a addr command d0 = -1) :=
  ⟨fun h => by simp [smbus_read_byte, h],
   fun h => by simp [smbus_read_byte, h],
   fun h => by simp [smbus_read_byte_data, h],
   fun h => by simp [smbus_read_byte_data, h],
   fun h => by simp [smbus_read_word_data, h],
   fun h => by simp [smbus_read_word_data, h]⟩

/-- Claim C4 witness: a succeeding access makes smbus_read_byte return
the byte view (7 under accWF) and a failing access makes each wrapper
return -1. -/
theorem smbus_read_scalar_wrappers_w :
    smbus_read_byte accWF a0 5 dZ
      = Int.ofNat (accWF a0 5 SMBUS_READ 0 SMBUS_BYTE (some dZ)).2.byte
    ∧ smbus_read_byte accFail a0 5 dZ = -1
    ∧ smbus_read_word_data accWF a0 5 6 dZ
      = Int.ofNat (accWF a0 5 SMBUS_READ 6 SMBUS_WORD_DATA (some dZ)).2.word :=
  ⟨(smbus_read_scalar_wrappers accWF a0 5 6 dZ).1 rfl,
   (smbus_read_scalar_wrappers accFail a0 5 6 dZ).2.1 (by decide),
   (smbus_read_scalar_wrappers accWF a0 5 6 dZ).2.2.2.2.1 rfl⟩

/-- Claim C5: when smbus_access succeeds, smbus_read_block_data returns
the length byte block[0] as its byte count and copies exactly that many
bytes in order — values[i-1] = block[i] for 1 ≤ i ≤ block[0], every
other index of the caller's buffer untouched; when it fails it returns
-1 and writes nothing into values. -/
theorem smbus_read_block_data_copy (acc : SmbusAccessFn)
    (a : smbus_adapter) (addr command : Nat) (values : Nat → Nat)
    (d0 : smbus_data) :
    ((acc a addr SMBUS_READ command SMBUS_BLOCK_DATA (some d0)).1 = 0 →
       (smbus_read_block_data acc a addr command values d0).1
         = Int.ofNat ((acc a addr SMBUS_READ command SMBUS_BLOCK_DATA (some d0)).2.block 0)
       ∧ (∀ i, 1 ≤ i →
            i ≤ (acc a addr SMBUS_READ command SMBUS_BLOCK_DATA (some d0)).2.block 0 →
            (smbus_read_block_data acc a addr command values d0).2 (i - 1)
              = (acc a addr SMBUS_READ command SMBUS_BLOCK_DATA (some d0)).2.block i)
       ∧ (∀ j, (acc a addr SMBUS_READ command SMBUS_BLOCK_DATA (some d0)).2.block 0 ≤ j →
            (smbus_read_block_data acc a addr command values d0).2 j = values j))
    ∧ ((acc a addr SMBUS_READ command SMBUS_BLOCK_DATA (some d0)).1 ≠ 0 →
        smbus_read_block_data acc a addr command values d0 = (-1, values)) := by
  constructor
  · intro h
    refine ⟨by simp [smbus_read_block_data, h], ?_, ?_⟩
    · intro i h1 h2
      have hlt : i - 1 <
          (acc a addr SMBUS_READ command SMBUS_BLOCK_DATA (some d0)).2.block 0 := by omega
      have hi : i - 1 + 1 = i := by omega
      simp [smbus_read_block_data, h, readBlockCopy_eq, hlt, hi]
    · intro j hj
      have hlt : ¬ (j <
          (acc a addr SMBUS_READ command SMBUS_BLOCK_DATA (some d0)).2.block 0) := by omega
      simp [smbus_read_block_data, h, readBlockCopy_eq, hlt]
  · intro h
    simp [smbus_read_block_data, h]

/-- Claim C5 witness: under accBig (which succeeds reporting length byte
40 and block[i] = i) the wrapper returns 40, places block[3] = 3 at
values[2], and under a failing access the buffer comes back untouched
with status -1. -/
theorem smbus_read_block_data_copy_w :
    (smbus_read_block_data accBig a0 5 6 valsZ dZ).1
      = Int.ofNat ((accBig a0 5 SMBUS_READ 6 SMBUS_BLOCK_DATA (some dZ)).2.block 0)
    ∧ (smbus_read_block_data accBig a0 5 6 valsZ dZ).2 2
      = (accBig a0 5 SMBUS_READ 6 SMBUS_BLOCK_DATA (some dZ)).2.block 3
    ∧ smbus_read_block_data accFail a0 5 6 valsZ dZ = (-1, valsZ) :=
  ⟨((smbus_read_block_data_copy accBig a0 5 6 valsZ dZ).1 rfl).1,
   ((smbus_read_block_data_copy accBig a0 5 6 valsZ dZ).1 rfl).2.1 3
     (by decide) (by decide),
   (smbus_read_block_data_copy accFail a0 5 6 valsZ dZ).2 (by decide)⟩

/-- Claim C6: smbus_process_call marshals the value into the word view
of the union ({d0 with word := value}), invokes smbus_access with the
SMBUS_WRITE direction and the SMBUS_PROC_CALL kind, and on success
returns the word left in the union by that access; on failure -1. -/
theorem smbus_process_call_spec (acc : SmbusAccessFn) (a : smbus_adapter)
    (addr command value : Nat) (d0 : smbus_data) :
    ((acc a addr SMBUS_WRITE command SMBUS_PROC_CALL
        (some { d0 with word := value })).1 = 0 →
       smbus_process_call acc a addr command value d0
         = Int.ofNat (acc a addr SMBUS_WRITE command SMBUS_PROC_CALL
            (some { d0 with word := value })).2.word)
    ∧ ((acc a addr SMBUS_WRITE command SMBUS_PROC_CALL
        (some { d0 with word := value })).1 ≠ 0 →
       smbus_process_call acc a addr command value d0 = -1)
    ∧ ({ d0 with word := value } : smbus_data).word = value :=
  ⟨fun h => by simp [smbus_process_call, h],
   fun h => by simp [smbus_process_call, h],
   rfl⟩

/-- Claim C6 witness: a succeeding access makes smbus_process_call return
the word it left in the union (7 under accWF); a failing one yields -1. -/
theorem smbus_process_call_spec_w :
    smbus_process_call accWF a0 5 6 1234 dZ
      = Int.ofNat (accWF a0 5 SMBUS_WRITE 6 SMBUS_PROC_CALL
          (some { dZ with word := 1234 })).2.word
    ∧ smbus_process_call accFail a0 5 6 1234 dZ = -1 :=
  ⟨(smbus_process_call_spec accWF a0 5 6 1234 dZ).1 rfl,
   (smbus_process_call_spec accFail a0 5 6 1234 dZ).2.1 (by decide)⟩

/-- Claim C7: client_count never exceeds the fixed capacity
I2C_CLIENT_MAX — smbus_attach_client preserves the bound — and an attach
on a full adapter fails with AdapterFull leaving the adapter (client
list and count) unchanged. -/
theorem smbus_attach_client_capacity (a : smbus_adapter) (c : smbus_client) :
    (a.client_count ≤ I2C_CLIENT_MAX →
       (smbus_attach_client a c).2.client_count ≤ I2C_CLIENT_MAX)
    ∧ (I2C_CLIENT_MAX ≤ a.client_count →
       (smbus_attach_client a c).1 = some SmbusError.AdapterFull
       ∧ (smbus_attach_client a c).2 = a) := by
  constructor
  · intro h
    by_cases h1 : a.client_count < I2C_CLIENT_MAX
    · by_cases h2 : a.clients.any (fun c2 => c2.addr == c.addr)
      · simpa [smbus_attach_client, h1, h2] using h
      · have h1' : a.client_count + 1 ≤ I2C_CLIENT_MAX := h1
        simpa [smbus_attach_client, h1, h2] using h1'
    · simpa [smbus_attach_client, h1] using h
  · intro h
    have h1 : ¬ a.client_count < I2C_CLIENT_MAX := by omega
    simp [smbus_attach_client, h1]

/-- Claim C7 witness: attaching to the full adapter aFull (count 32 =
I2C_CLIENT_MAX) fails with AdapterFull and returns the adapter
unchanged; attaching to the empty adapter a0 keeps the count within the
capacity. -/
theorem smbus_attach_client_capacity_w :
    (smbus_attach_client aFull c0).1 = some SmbusError.AdapterFull
    ∧ (smbus_attach_client aFull c0).2 = aFull
    ∧ (smbus_attach_client a0 c0).2.client_count ≤ I2C_CLIENT_MAX :=
  ⟨((smbus_attach_client_capacity aFull c0).2 (by decide)).1,
   ((smbus_attach_client_capacity aFull c0).2 (by decide)).2,
   (smbus_attach_client_capacity a0 c0).1 (by decide)⟩

/-- A second concrete adapter sharing a0's algorithm g0 but carrying a
different native access routine. -/
def a2 : smbus_adapter :=
  { a0 with smbus_access := fun _ _ _ _ _ => (1, dZ) }

/-- Claim C8 counterexample: in the source the native smbus_access entry
point is a field of struct smbus_adapter, not of struct smbus_algorithm:
the adapters a0 and a2 are bound to the very same algorithm yet carry
different smbus_access entries, so the entry point is not a component of
(nor determined by) the Algorithm. -/
theorem smbus_access_not_algorithm_component_cex :
    a0.algo = a2.algo ∧ a0.smbus_access ≠ a2.smbus_access := by
  refine ⟨rfl, fun h => ?_⟩
  have h0 := congrFun (congrFun (congrFun (congrFun (congrFun h 0) 0) 0) 0) none
  simp [a0, a2] at h0

/-- Claim C8 amended: the native smbus_access entry point is a
per-adapter field of struct smbus_adapter: any algorithm can be bound to
an adapter carrying any access routine, independently. -/
theorem smbus_access_per_adapter_field (g : smbus_algorithm)
    (f : Nat → Nat → Nat → Nat → Option smbus_data → Int × smbus_data) :
    ∃ a : smbus_adapter, a.algo = g ∧ a.smbus_access = f :=
  ⟨{ a0 with algo := g, smbus_access := f }, rfl, rfl⟩

/-- Claim C10: whenever smbus_access reports status 0, every read-style
wrapper returns a non-negative value — a u8 byte in [0,255], a u16 word
in [0,65535], or a u8 block count in [0,255] (widths guaranteed by the C
types of the union, hypothesis hwf) — so -1 never coincides with a
successful result; and every nonzero status, whatever its value, is
collapsed to the single return -1. -/
theorem smbus_read_wrappers_sign (acc : SmbusAccessFn) (a : smbus_adapter)
    (addr command value : Nat) (values : Nat → Nat) (d0 : smbus_data)
    (hwf : ∀ (a2 : smbus_adapter) (x rw c sz : Nat) (d : Option smbus_data),
      ((acc a2 x rw c sz d).2).WF) :
    ((acc a addr SMBUS_READ 0 SMBUS_BYTE (some d0)).1 = 0 →
       0 ≤ smbus_read_byte acc a addr d0 ∧ smbus_read_byte acc a addr d0 < 256)
    ∧ ((acc a addr SMBUS_READ 0 SMBUS_BYTE (some d0)).1 ≠ 0 →
       smbus_read_byte acc a addr d0 = -1)
    ∧ ((acc a addr SMBUS_READ command SMBUS_BYTE_DATA (some d0)).1 = 0 →
       0 ≤ smbus_read_byte_data acc a addr command d0
       ∧ smbus_read_byte_data acc a addr command d0 < 256)
    ∧ ((acc a addr SMBUS_READ command SMBUS_BYTE_DATA (some d0)).1 ≠ 0 →
       smbus_read_byte_data acc a addr command d0 = -1)
    ∧ ((acc a addr SMBUS_READ command SMBUS_WORD_DATA (some d0)).1 = 0 →
       0 ≤ smbus_read_word_data acc a addr command d0
       ∧ smbus_read_word_data acc a addr command d0 < 65536)
    ∧ ((acc a addr SMBUS_READ command SMBUS_WORD_DATA (some d0)).1 ≠ 0 →
       smbus_read_word_data acc a addr command d0 = -1)
    ∧ ((acc a addr SMBUS_WRITE command SMBUS_PROC_CALL
         (some { d0 with word := value })).1 = 0 →
       0 ≤ smbus_process_call acc a addr command value d0
       ∧ smbus_process_call acc a addr command value d0 < 65536)
    ∧ ((acc a addr SMBUS_WRITE command SMBUS_PROC_CALL
         (some { d0 with word := value })).1 ≠ 0 →
       smbus_process_call acc a addr command value d0 = -1)
    ∧ ((acc a addr SMBUS_READ command SMBUS_BLOCK_DATA (some d0)).1 = 0 →
       0 ≤ (smbus_read_block_data acc a addr command values d0).1
       ∧ (smbus_read_block_data acc a addr command values d0).1 < 256)
    ∧ ((acc a addr SMBUS_READ command SMBUS_BLOCK_DATA (some d0)).1 ≠ 0 →
       (smbus_read_block_data acc a addr command values d0).1 = -1) := by
  refine ⟨fun h => ?_, fun h => by simp [smbus_read_byte, h],
          fun h => ?_, fun h => by simp [smbus_read_byte_data, h],
          fun h => ?_, fun h => by simp [smbus_read_word_data, h],
          fun h => ?_, fun h => by simp [smbus_process_call, h],
          fun h => ?_, fun h => by simp [smbus_read_block_data, h]⟩
  · have hb := (hwf a addr SMBUS_READ 0 SMBUS_BYTE (some d0)).1
    simp [smbus_read_byte, h]
    omega
  · have hb := (hwf a addr SMBUS_READ command SMBUS_BYTE_DATA (some d0)).1
    simp [smbus_read_byte_data, h]
    omega
  · have hb := (hwf a addr SMBUS_READ command SMBUS_WORD_DATA (some d0)).2.1
    simp [smbus_read_word_data, h]
    omega
  · have hb := (hwf a addr SMBUS_WRITE command SMBUS_PROC_CALL
      (some { d0 with word := value })).2.1
    simp [smbus_process_call, h]
    omega
  · have hb := (hwf a addr SMBUS_READ command SMBUS_BLOCK_DATA (some d0)).2.2 0
    simp [smbus_read_block_data, h]
    omega

/-- Claim C10 witness: under the well-formed succeeding access accWF the
byte read is in [0,256) and under the failing access accFail (status -5)
the result collapses to -1. -/
theorem smbus_read_wrappers_sign_w :
    (0 ≤ smbus_read_byte accWF a0 5 dZ ∧ smbus_read_byte accWF a0 5 dZ < 256)
    ∧ smbus_read_byte accFail a0 5 dZ = -1
    ∧ (0 ≤ (smbus_read_block_data accWF a0 5 6 valsZ dZ).1
       ∧ (smbus_read_block_data accWF a0 5 6 valsZ dZ).1 < 256) :=
  ⟨(smbus_read_wrappers_sign accWF a0 5 6 7 valsZ dZ
      (fun _ _ _ _ _ _ => show d7.WF from ⟨by decide, by decide, fun _ => show (7:Nat) < 256 by decide⟩)).1 rfl,
   (smbus_read_wrappers_sign accFail a0 5 6 7 valsZ dZ
      (fun _ _ _ _ _ _ => show dZ.WF from ⟨by decide, by decide, fun _ => show (0:Nat) < 256 by decide⟩)).2.1 (by decide),
   (smbus_read_wrappers_sign accWF a0 5 6 7 valsZ dZ
      (fun _ _ _ _ _ _ => show d7.WF from ⟨by decide, by decide, fun _ => show (7:Nat) < 256 by decide⟩)).2.2.2.2.2.2.2.2.1 rfl⟩
